import Mathlib

/-
  A verification development for the Endoscapes2023 SurgicalSAM2 inference
  pipeline (Endoscapes2023_Pipeline/inference.py).

  The pipeline's planning and bookkeeping logic is embedded shallowly:
  Python dicts become insertion-ordered association lists over Nat keys,
  numpy boolean masks become lists of booleans, the external SAM2 predictor
  and the mask-geometry utilities (utils.mask_to_masks, utils.mask_to_bbox,
  utils.mask_to_points, all imported from outside this file's source) are
  parameters of the embedding, and code that can raise a Python exception
  is modeled in the Except monad.
-/

namespace SSAM

/-- A binary mask, flattened to a list of booleans.  RLE encoding and
decoding (pycocotools.mask) are external; an annotation's `segmentation`
field is modeled directly as the mask it decodes to. -/
abbrev Mask := List Bool

/-- Seed points for the predictor (`utils.mask_to_points` output). -/
abbrev Points := List (Nat × Nat)

/-- Python `mask.sum()` on a flat boolean mask: the number of true pixels. -/
def maskSum (m : Mask) : Nat := m.countP id

/-- Pointwise `np.logical_or(a, b)` on two masks of equal shape. -/
def unionMask (a b : Mask) : Mask := a.zipWith (· || ·) b

/-- Reduction `np.logical_or.reduce(stack, axis=0)` on an axis-0 stack of masks
(the per-object prediction tensors have shape (1, H, W)). -/
def reduceOrAxis0 : List Mask → Mask
  | [] => []
  | m :: ms => ms.foldl unionMask m

/-- Squeeze `np.squeeze(stack, axis=0)`: the predictor emits singleton axis-0
stacks, on which squeezing is exactly taking the head. -/
def squeeze0 (ms : List Mask) : Mask := ms.headD []

/-- One COCO annotation as consumed by the pipeline: a category id and a
segmentation (modeled as the decoded binary mask, see `Mask`). -/
structure CocoAnn where
  category_id : Nat
  segmentation : Mask
deriving DecidableEq

/-- One image record of the COCO store, as used by inference.py:
`id`, `video_id`, `order_in_video`, `is_det_keyframe`, `path`. -/
structure Frame where
  id : Nat
  video_id : Nat
  order_in_video : Nat
  is_det_keyframe : Bool
  path : String
deriving DecidableEq

/-- The ambient external data the pipeline reads: the annotation store
(`COCO_INFO.getAnnIds` / `loadAnns`, keyed by image id), the category
count `len(COCO_INFO.cats)`, and the mask-geometry utilities imported
from `utils` (a module outside this source file).  `mask_to_points_default`
models the call `mask_to_points(mask)` that relies on the utility's
default point count. -/
structure CocoEnv where
  anns : Nat → List CocoAnn
  num_cat : Nat
  mask_to_masks : Mask → List Mask
  mask_to_bbox : Mask → List Nat
  mask_to_points : Mask → Nat → Points
  mask_to_points_default : Mask → Points

/-- Structure `ClipRange` from inference.py: inclusive 0-based frame ordinals. -/
structure ClipRange where
  start_idx : Nat
  end_idx : Nat
deriving DecidableEq

/-- One prompt object, as built by `get_each_obj` / `get_obj_from_masks`. -/
structure PromptObj where
  mask : Mask
  bbox : List Nat
  points : Points
  obj_id : Nat
deriving DecidableEq

/-- Structure `PromptInfo` from inference.py. -/
structure PromptInfo where
  prompt_objs : List PromptObj
  frame_idx : Nat
  prompt_type : String
  video_id : String
  path : String
deriving DecidableEq

/-- The per-object prediction value stored by `predict_on_video`:
an axis-0 stack of masks (`out_mask_logits[i] > 0.0`, shape (1, H, W))
and a confidence score.  The score is produced externally by
`torch.sigmoid(...).max().item()`; it is modeled as an abstract numeric
value, since the pipeline only ever copies it. -/
structure MaskInfo where
  mask : List Mask
  score : Nat
deriving DecidableEq

/-- One frame's segment: the Python dict `obj_id -> {mask, score}`,
modeled as an insertion-ordered association list. -/
abbrev FrameSeg := List (Nat × MaskInfo)

/-- One output record built by `save_as_coco_format` (the RLE step is
external, so `segmentation` keeps the mask itself). -/
structure AnnRecord where
  image_id : Nat
  category_id : Nat
  segmentation : Mask
  bbox : List Nat
  iscrowd : Nat
  score : Nat
deriving DecidableEq

/-- Python dict lookup `d[k]` on an insertion-ordered association list,
returning `none` where Python would raise KeyError. -/
def alookup {α : Type} : List (Nat × α) → Nat → Option α
  | [], _ => none
  | kv :: rest, k => if kv.1 = k then some kv.2 else alookup rest k

/-- Python dict assignment `d[k] = v`: overwrite in place if the key is
present, else append (insertion order preserved). -/
def dictInsert {α : Type} : List (Nat × α) → Nat → α → List (Nat × α)
  | [], k, v => [(k, v)]
  | kv :: rest, k, v => if kv.1 = k then (k, v) :: rest else kv :: dictInsert rest k v

/-- Python `d.update(other)`: assign every key of `other` into `d`. -/
def dictUpdate {α : Type} : List (Nat × α) → List (Nat × α) → List (Nat × α)
  | d, [] => d
  | d, kv :: rest => dictUpdate (dictInsert d kv.1 kv.2) rest

/-- The merged-mask accumulation step of `save_as_coco_format`:
`merged_mask[remainder] = m_mask` on a fresh key, or
`merged_mask[remainder] = np.logical_or(merged_mask[remainder], m_mask)`
on an existing one. -/
def insertOrUnion : List (Nat × Mask) → Nat → Mask → List (Nat × Mask)
  | [], k, m => [(k, m)]
  | km :: rest, k, m =>
    if km.1 = k then (k, unionMask km.2 m) :: rest else km :: insertOrUnion rest k m

/-!  ## Object Identity Encoder

The source computes `obj_id = OBJ_COUNT * (num_cat + 1) + ann["category_id"]`
(inference.py, `get_each_obj`) and recovers the category as
`key % (num_cat + 1)` (inference.py, `save_as_coco_format`).  `OBJ_COUNT`
is a process-wide counter reset to zero at the start of each video
(`process_singel_video`) and incremented once per emitted instance. -/

/-- The object-id encoding of `get_each_obj`:
`OBJ_COUNT * (num_cat + 1) + category_id`. -/
def encode_obj_id (objCount num_cat cat : Nat) : Nat :=
  objCount * (num_cat + 1) + cat

/-- The category decoding of `save_as_coco_format`: `key % (num_cat + 1)`. -/
def decode_category (num_cat obj_id : Nat) : Nat := obj_id % (num_cat + 1)

/-- The ids produced by a sequence of encode steps sharing the counter:
each emitted instance consumes the current counter value and increments it
(the `OBJ_COUNT` discipline of `get_each_obj`). -/
def encode_ids (num_cat : Nat) : Nat → List Nat → List Nat
  | _, [] => []
  | cnt, c :: rest => encode_obj_id cnt num_cat c :: encode_ids num_cat (cnt + 1) rest

/-- Predicate `matchesCats cats c` is the complement of the guard
`if cats is not None and ann["category_id"] not in cats: continue`. -/
def matchesCats : Option (List Nat) → Nat → Bool
  | none, _ => true
  | some cs, c => cs.contains c

/-- The inner loop of `get_each_obj`: one PromptObj per connected
component returned by `mask_to_masks`, each consuming one counter value. -/
def objsOfMasks (env : CocoEnv) (catId np : Nat) : List Mask → Nat → List PromptObj × Nat
  | [], cnt => ([], cnt)
  | m :: ms, cnt =>
    ((⟨m, env.mask_to_bbox m, env.mask_to_points m np,
        encode_obj_id cnt env.num_cat catId⟩ : PromptObj)
        :: (objsOfMasks env catId np ms (cnt + 1)).1,
      (objsOfMasks env catId np ms (cnt + 1)).2)

/-- The outer loop of `get_each_obj` over the frame's annotations. -/
def annsLoop (env : CocoEnv) (np : Nat) (cats : Option (List Nat)) :
    List CocoAnn → Nat → List PromptObj × Nat
  | [], cnt => ([], cnt)
  | ann :: rest, cnt =>
    if matchesCats cats ann.category_id then
      ((objsOfMasks env ann.category_id np (env.mask_to_masks ann.segmentation) cnt).1
          ++ (annsLoop env np cats rest
                (objsOfMasks env ann.category_id np (env.mask_to_masks ann.segmentation) cnt).2).1,
        (annsLoop env np cats rest
          (objsOfMasks env ann.category_id np (env.mask_to_masks ann.segmentation) cnt).2).2)
    else annsLoop env np cats rest cnt

/-- Function `get_each_obj(prompt_frame, num_points, cats)` with the global
`OBJ_COUNT` threaded explicitly: returns the prompt objects and the
updated counter. -/
def get_each_obj (env : CocoEnv) (prompt_frame : Frame) (np : Nat)
    (cats : Option (List Nat)) (cnt : Nat) : List PromptObj × Nat :=
  annsLoop env np cats (env.anns prompt_frame.id) cnt

/-- The category id of each instance `get_each_obj` emits, in emission
order: one copy of the annotation's category per connected component. -/
def instanceCats (env : CocoEnv) (cats : Option (List Nat)) : List CocoAnn → List Nat
  | [] => []
  | ann :: rest =>
    if matchesCats cats ann.category_id then
      List.replicate (env.mask_to_masks ann.segmentation).length ann.category_id
        ++ instanceCats env cats rest
    else instanceCats env cats rest

/-!  ## Clip Planner (fixed-length mode)  -/

/-- The predicate of `find_prompt_frame`'s scan: the frame is a keyframe,
its ordinal lies inside the clip range, and `getAnnIds` is non-empty. -/
def promptFramePred (env : CocoEnv) (cr : ClipRange) (f : Frame) : Bool :=
  f.is_det_keyframe
    && decide (cr.start_idx ≤ f.order_in_video)
    && decide (f.order_in_video ≤ cr.end_idx)
    && !(env.anns f.id).isEmpty

/-- Function `find_prompt_frame(frames, clip_range)`: the first frame in the list's
iteration order that passes all three guards, `none` if no frame does. -/
def find_prompt_frame (env : CocoEnv) (frames : List Frame) (cr : ClipRange) :
    Option Frame :=
  frames.find? (promptFramePred env cr)

/-- The start indices and ranges walked by `get_clip_prompts`'s loop
`for start_idx in range(0, len(frames), clip_length)`, with
`end_idx = min(start_idx + clip_length - 1, len(frames) - 1)`.
Recursion is fuelled by the frame count; the Python `range` raises
ValueError for a zero step, so everything below assumes `1 ≤ L`. -/
def fixedRangesFrom (n L : Nat) : Nat → Nat → List ClipRange
  | 0, _ => []
  | fuel + 1, s =>
    if s < n then
      ClipRange.mk s (min (s + L - 1) (n - 1)) :: fixedRangesFrom n L fuel (s + L)
    else []

/-- All candidate clip ranges of fixed-length mode for `n` frames and
clip length `L`. -/
def fixedRanges (n L : Nat) : List ClipRange := fixedRangesFrom n L n 0

/-- Predicate `tilesFrom s n rs` holds when the ranges `rs`, in order, exactly tile
the ordinal interval from `s` to `n - 1`: each range starts where the
previous one ended plus one, each is non-empty, and the last ends at
`n - 1`. -/
def tilesFrom : Nat → Nat → List ClipRange → Bool
  | s, n, [] => s == n
  | s, n, cr :: rest =>
    decide (cr.start_idx = s) && decide (cr.start_idx ≤ cr.end_idx)
      && tilesFrom (cr.end_idx + 1) n rest

/-- The generator body of `get_clip_prompts` over an explicit list of
candidate ranges: a skipped range (no prompt frame) yields nothing, an
accepted one yields one `points`-style batch built by `get_each_obj`
(with its default `num_points=1` and `cats=None`).  The global
`OBJ_COUNT` is threaded through as `cnt`. -/
def getClipPromptsLoop (env : CocoEnv) (frames : List Frame) (prompt_type : String) :
    List ClipRange → Nat → List (List PromptInfo × ClipRange) × Nat
  | [], cnt => ([], cnt)
  | cr :: rest, cnt =>
    match find_prompt_frame env frames cr with
    | none =>
      -- `logger.warning(...)`; the clip is skipped entirely.
      getClipPromptsLoop env frames prompt_type rest cnt
    | some pf =>
      (([⟨(get_each_obj env pf 1 none cnt).1, pf.order_in_video, prompt_type,
            toString pf.video_id, pf.path⟩], cr)
          :: (getClipPromptsLoop env frames prompt_type rest (get_each_obj env pf 1 none cnt).2).1,
        (getClipPromptsLoop env frames prompt_type rest (get_each_obj env pf 1 none cnt).2).2)

/-- Generator `get_clip_prompts(frames, prompt_type, clip_length)` (its yielded
sequence, materialised): `clip_length=None` defaults to the whole video. -/
def get_clip_prompts (env : CocoEnv) (frames : List Frame) (prompt_type : String)
    (clip_length : Option Nat) (cnt : Nat) : List (List PromptInfo × ClipRange) × Nat :=
  getClipPromptsLoop env frames prompt_type
    (fixedRanges frames.length (clip_length.getD frames.length)) cnt

/-- The clip ranges for which `get_clip_prompts` emits its warning and
yields nothing (one warning per range with no prompt frame). -/
def getClipWarnings (env : CocoEnv) (frames : List Frame) (clip_length : Option Nat) :
    List ClipRange :=
  (fixedRanges frames.length (clip_length.getD frames.length)).filter
    (fun cr => (find_prompt_frame env frames cr).isNone)

/-!  ## Clip Planner (category-growth mode)  -/

/-- Function `get_num_categories(frame)`: the set of category ids annotated on the
frame, modeled as a deduplicated list. -/
def get_num_categories (env : CocoEnv) (frame : Frame) : List Nat :=
  ((env.anns frame.id).map CocoAnn.category_id).dedup

/-- Set union `existing_cats.union(diff_cats)` on list-encoded sets. -/
def unionCats (a b : List Nat) : List Nat := a ++ b.filter (fun c => !a.contains c)

/-- The keyframe walk of `get_prompts_from_categories`, threading the
running category set, the pending `(previous_prompt_info,
previous_start_idx)` pair and the `OBJ_COUNT` counter.  The source line

  `prompt_and_ranges.append([previous_prompt_info], ClipRange(...))`

calls `list.append` with two arguments, which raises TypeError at run
time; the walk therefore aborts whenever a second category-introducing
keyframe is reached.  (The guard `if prompt_objs is None: continue` of the
source can never fire, because `get_each_obj` always returns a list.) -/
def gpfcLoop (env : CocoEnv) :
    List Frame → List Nat → Option (PromptInfo × Nat) → Nat →
      Except String (Option (PromptInfo × Nat) × Nat)
  | [], _, prev, cnt => .ok (prev, cnt)
  | f :: rest, existing, prev, cnt =>
    if f.is_det_keyframe = false then gpfcLoop env rest existing prev cnt
    else if (get_num_categories env f).all (fun c => existing.contains c) then
      gpfcLoop env rest existing prev cnt
    else
      match prev with
      | none =>
        gpfcLoop env rest (unionCats existing (get_num_categories env f))
          (some (⟨(get_each_obj env f 1 none cnt).1, f.order_in_video, "points",
              toString f.video_id, f.path⟩, f.order_in_video))
          (get_each_obj env f 1 none cnt).2
      | some _ => .error "TypeError: list.append takes exactly one argument - 2 given"

/-- Function `get_prompts_from_categories(frames)`.  When no keyframe ever
introduces a category, the source appends a final pair whose prompt batch
is the one-element list holding Python's None and whose range is
`ClipRange(None, len(frames)-1)`; every later use of that pair
(`frames[start_idx:...]`, `prompt_info["prompt_objs"]`) then raises
TypeError unconditionally, so this unrepresentable poisoned state is
surfaced as an error here. -/
def get_prompts_from_categories (env : CocoEnv) (frames : List Frame) (cnt : Nat) :
    Except String (List (List PromptInfo × ClipRange) × Nat) :=
  match gpfcLoop env frames [] none cnt with
  | .error e => .error e
  | .ok (none, _) => .error "TypeError: NoneType prompt batch"
  | .ok (some (pi, startIdx), cnt2) =>
    if startIdx ≠ frames.length - 1 then
      .ok ([([pi], ClipRange.mk startIdx (frames.length - 1))], cnt2)
    else .ok ([], cnt2)

/-- The keyframes that introduce at least one unseen category when the
frame list is walked in order with a running category set (these are
exactly the frames on which `get_prompts_from_categories` anchors a new
clip). -/
def introducersLoop (env : CocoEnv) : List Frame → List Nat → List Frame
  | [], _ => []
  | f :: rest, existing =>
    if f.is_det_keyframe = false then introducersLoop env rest existing
    else if (get_num_categories env f).all (fun c => existing.contains c) then
      introducersLoop env rest existing
    else f :: introducersLoop env rest (unionCats existing (get_num_categories env f))

/-- The category-introducing keyframes of a video. -/
def introducers (env : CocoEnv) (frames : List Frame) : List Frame :=
  introducersLoop env frames []

/-!  ## Clip Processor  -/

/-- One propagation pass of `predict_on_video`: the `for ... in
predictor.propagate_in_video(...)` loop writes each propagated frame's
per-object results into `video_segments` at the absolute ordinal
`out_frame_idx + start_idx`.  The per-object conversion
(`logits > 0`, `sigmoid(...).max()`) happens inside the external model
loop, so a pass is modeled as the list of `(relative frame idx, FrameSeg)`
pairs it delivers. -/
def passFold (start_idx : Nat) : List (Nat × FrameSeg) →
    List (Nat × FrameSeg) → List (Nat × FrameSeg)
  | [], acc => acc
  | p :: rest, acc => passFold start_idx rest (dictInsert acc (p.1 + start_idx) p.2)

/-- Function `predict_on_video(predictor, inference_state, start_idx)`: the reverse
pass is written into the fresh output map first, then the forward pass,
so a forward write replaces any reverse write at the same frame. -/
def predict_on_video (reversePass forwardPass : List (Nat × FrameSeg))
    (start_idx : Nat) : List (Nat × FrameSeg) :=
  passFold start_idx forwardPass (passFold start_idx reversePass [])

/-!  ## Video Orchestrator  -/

/-- Function `get_obj_from_masks(video_segment)`: one prompt object per sub-mask
that `mask_to_masks` splits each non-empty instance mask into, keeping the
instance's object id; instances whose mask sums to zero are skipped. -/
def get_obj_from_masks (env : CocoEnv) : FrameSeg → List PromptObj
  | [] => []
  | kv :: rest =>
    if (kv.2.mask.map maskSum).sum = 0 then get_obj_from_masks env rest
    else (env.mask_to_masks (squeeze0 kv.2.mask)).map
        (fun m => ⟨m, env.mask_to_bbox m, env.mask_to_points_default m, kv.1⟩)
      ++ get_obj_from_masks env rest

/-- The synthetic boundary prompt built at the end of each clip in
category-growth mode (`previous_frame_mask_prompt` in
`process_singel_video`): its objects come from the merged segment of the
clip's last frame, its anchor is that frame's ordinal, and its kind tag is
the orchestrator's `prompt_type` argument. -/
def mkBoundaryPrompt (env : CocoEnv) (prompt_type : String) (endSeg : FrameSeg)
    (cr : ClipRange) (frame0 endFrame : Frame) : PromptInfo :=
  { prompt_objs := get_obj_from_masks env endSeg
    frame_idx := cr.end_idx
    prompt_type := prompt_type
    video_id := toString frame0.video_id
    path := endFrame.path }

/-- The per-video result: the merged `video_segments` map and the list of
`(clip_prompts, clip_range)` pairs actually submitted to
`process_video_clip` (each batch also goes to the process-wide
`PROMPT_INFO` log via `save_prompt_frame`). -/
structure VideoRunResult where
  segments : List (Nat × FrameSeg)
  submitted : List (List PromptInfo × ClipRange)
deriving DecidableEq

/-- The clip loop of `process_singel_video`.  `clipResult` stands for the
external `process_video_clip` call: it stages the clip, seeds the
prompts, and returns `predict_on_video`'s map for that clip.  In
category-growth mode (`variable_cats`), a pending boundary prompt is
appended to the incoming batch, and after the clip the next boundary
prompt is built from `video_segments[clip_range.end_idx]` (a KeyError if
that ordinal is absent) and `frames[clip_range.end_idx]` / `frames[0]`
(IndexErrors if out of range). -/
def runClipsLoop (env : CocoEnv)
    (clipResult : List Frame → List PromptInfo → ClipRange → List (Nat × FrameSeg))
    (frames : List Frame) (prompt_type : String) (variable_cats : Bool) :
    List (List PromptInfo × ClipRange) → List (Nat × FrameSeg) →
      List (List PromptInfo × ClipRange) → Option PromptInfo →
      Except String VideoRunResult
  | [], segs, log, _ => .ok ⟨segs, log⟩
  | (cps0, cr) :: rest, segs, log, prev =>
    match variable_cats, prev with
    | true, some p =>
      match alookup (dictUpdate segs (clipResult frames (cps0 ++ [p]) cr)) cr.end_idx,
          frames[cr.end_idx]?, frames[0]? with
      | some endSeg, some endFrame, some frame0 =>
        runClipsLoop env clipResult frames prompt_type true rest
          (dictUpdate segs (clipResult frames (cps0 ++ [p]) cr))
          (log ++ [(cps0 ++ [p], cr)])
          (some (mkBoundaryPrompt env prompt_type endSeg cr frame0 endFrame))
      | none, _, _ => .error "KeyError: clip end frame absent from video segments"
      | _, _, _ => .error "IndexError: list index out of range"
    | true, none =>
      match alookup (dictUpdate segs (clipResult frames cps0 cr)) cr.end_idx,
          frames[cr.end_idx]?, frames[0]? with
      | some endSeg, some endFrame, some frame0 =>
        runClipsLoop env clipResult frames prompt_type true rest
          (dictUpdate segs (clipResult frames cps0 cr))
          (log ++ [(cps0, cr)])
          (some (mkBoundaryPrompt env prompt_type endSeg cr frame0 endFrame))
      | none, _, _ => .error "KeyError: clip end frame absent from video segments"
      | _, _, _ => .error "IndexError: list index out of range"
    | false, _ =>
      runClipsLoop env clipResult frames prompt_type false rest
        (dictUpdate segs (clipResult frames cps0 cr))
        (log ++ [(cps0, cr)])
        none

/-- Function `process_singel_video(frames, prompt_type, clip_length, variable_cats)`
with `OBJ_COUNT` reset to zero at entry and `process_video_clip` abstracted
as `clipResult`. -/
def process_singel_video (env : CocoEnv)
    (clipResult : List Frame → List PromptInfo → ClipRange → List (Nat × FrameSeg))
    (frames : List Frame) (prompt_type : String) (clip_length : Option Nat)
    (variable_cats : Bool) : Except String VideoRunResult :=
  if variable_cats then
    match get_prompts_from_categories env frames 0 with
    | .error e => .error e
    | .ok pr => runClipsLoop env clipResult frames prompt_type true pr.1 [] [] none
  else
    runClipsLoop env clipResult frames prompt_type false
      (get_clip_prompts env frames prompt_type clip_length 0).1 [] [] none

/-!  ## Mask Reassembler (`save_as_coco_format`)  -/

/-- The per-frame merging loop of `save_as_coco_format`: for each
`(key, mask_info)` of the frame's object map, in iteration order, fold
`np.logical_or.reduce(mask_info["mask"], axis=0)` into
`merged_mask[key % (num_cat + 1)]`, and (re)bind the loop variable
`score = mask_info["score"]`.  The returned score is the binding left
behind by the final iteration - the last instance of the whole frame,
across all categories. -/
def mergeLoop (num_cat : Nat) :
    FrameSeg → List (Nat × Mask) → Option Nat → List (Nat × Mask) × Option Nat
  | [], merged, sc => (merged, sc)
  | kv :: rest, merged, _ =>
    mergeLoop num_cat rest
      (insertOrUnion merged (decode_category num_cat kv.1) (reduceOrAxis0 kv.2.mask))
      (some kv.2.score)

/-- The merged per-category masks of one frame, plus the final value of
the `score` loop variable. -/
def mergeMasks (num_cat : Nat) (items : FrameSeg) : List (Nat × Mask) × Option Nat :=
  mergeLoop num_cat items [] none

/-- The record-emission step of `save_as_coco_format`: skip a category
whose merged mask is all zero, otherwise build the output record.  Note
that `sc` - the leftover `score` binding - is the same for every category
of the frame. -/
def emitAnn (env : CocoEnv) (image_id sc : Nat) (km : Nat × Mask) : Option AnnRecord :=
  if maskSum km.2 = 0 then none
  else some ⟨image_id, km.1, km.2, env.mask_to_bbox km.2, 0, sc⟩

/-- All records `save_as_coco_format` emits for one keyframe. -/
def frameAnnRecords (env : CocoEnv) (image_id : Nat) (items : FrameSeg) :
    List AnnRecord :=
  (mergeMasks env.num_cat items).1.filterMap
    (emitAnn env image_id ((mergeMasks env.num_cat items).2.getD 0))

/-- All the masks `save_as_coco_format` merges into category `cat` for one
frame, in iteration order. -/
def catMasks (num_cat cat : Nat) (items : FrameSeg) : List Mask :=
  items.filterMap (fun kv =>
    if decode_category num_cat kv.1 = cat then some (reduceOrAxis0 kv.2.mask) else none)

/-- Fold a list of masks into an optional running union. -/
def ouAppend : Option Mask → List Mask → Option Mask
  | o, [] => o
  | none, m :: ms => ouAppend (some m) ms
  | some m0, m :: ms => ouAppend (some (unionMask m0 m)) ms

/-- The merged mask of category `cat` for one frame, `none` when no
instance decodes to it. -/
def catUnion (num_cat cat : Nat) (items : FrameSeg) : Option Mask :=
  ouAppend none (catMasks num_cat cat items)

/-- The insertion step of Python's stable `sorted(frames,
key=order_in_video)`. -/
def insertByOrder (f : Frame) : List Frame → List Frame
  | [] => [f]
  | g :: rest =>
    if f.order_in_video ≤ g.order_in_video then f :: g :: rest
    else g :: insertByOrder f rest

/-- Python `sort_dicts_by_field(frames, "order_in_video")`. -/
def sortFramesByOrder (frames : List Frame) : List Frame :=
  frames.foldr insertByOrder []

/-- The per-frame output loop of `save_as_coco_format` for one video:
non-keyframes are skipped, and each keyframe's ordinal indexes the
video's segment map - a KeyError when the ordinal is absent (for example
inside a skipped clip's range). -/
def saveFramesLoop (env : CocoEnv) (video_segments : List (Nat × FrameSeg)) :
    List Frame → List AnnRecord → Except String (List AnnRecord)
  | [], acc => .ok acc
  | f :: rest, acc =>
    if f.is_det_keyframe = false then saveFramesLoop env video_segments rest acc
    else
      match alookup video_segments f.order_in_video with
      | none => .error "KeyError: frame ordinal absent from video segments"
      | some items =>
        saveFramesLoop env video_segments rest (acc ++ frameAnnRecords env f.id items)

/-- The body of `save_as_coco_format` for one saved video: sort the
video's frames by ordinal, then assemble records keyframe by keyframe
(serialisation of the result is I/O and out of the model). -/
def save_video_records (env : CocoEnv) (video_segments : List (Nat × FrameSeg))
    (frames : List Frame) : Except String (List AnnRecord) :=
  saveFramesLoop env video_segments (sortFramesByOrder frames) []

/-- Project an Except value to its success payload. -/
def exceptOk {α : Type} : Except String α → Option α
  | .ok a => some a
  | .error _ => none

/-!  ## Concrete fixtures

Small concrete environments and frame lists used to evaluate the
definitions on closed inputs.  Geometry utilities are instantiated with
the simplest behaviour compatible with their contracts (a mask is its own
single connected component, boxes and points are irrelevant to the
properties at stake). -/

/-- A single-category annotation used throughout the fixtures. -/
def annCat1 : CocoAnn := ⟨1, [true]⟩

/-- A second-category annotation. -/
def annCat2 : CocoAnn := ⟨2, [true]⟩

/-- Environment in which only image id 0 carries an annotation. -/
def envA : CocoEnv :=
  { anns := fun i => if i = 0 then [annCat1] else []
    num_cat := 2
    mask_to_masks := fun m => [m]
    mask_to_bbox := fun _ => []
    mask_to_points := fun _ _ => []
    mask_to_points_default := fun _ => [] }

/-- Environment in which every image carries a category-1 annotation. -/
def envB : CocoEnv :=
  { anns := fun _ => [annCat1]
    num_cat := 2
    mask_to_masks := fun m => [m]
    mask_to_bbox := fun _ => []
    mask_to_points := fun _ _ => []
    mask_to_points_default := fun _ => [] }

/-- Environment in which image 0 introduces category 1 and every other
image introduces category 2. -/
def envC : CocoEnv :=
  { anns := fun i => if i = 0 then [annCat1] else [annCat2]
    num_cat := 2
    mask_to_masks := fun m => [m]
    mask_to_bbox := fun _ => []
    mask_to_points := fun _ _ => []
    mask_to_points_default := fun _ => [] }

/-- Two frames: an annotated keyframe at ordinal 0 and a plain frame at
ordinal 1. -/
def framesA : List Frame :=
  [⟨0, 0, 0, true, "f0.jpg"⟩, ⟨1, 0, 1, false, "f1.jpg"⟩]

/-- A frame list NOT sorted by ordinal: the annotated keyframe with
ordinal 5 precedes the annotated keyframe with ordinal 2. -/
def framesUnsorted : List Frame :=
  [⟨0, 0, 5, true, "f5.jpg"⟩, ⟨1, 0, 2, true, "f2.jpg"⟩]

/-- The same two frames sorted ascending by ordinal. -/
def framesSorted : List Frame :=
  [⟨1, 0, 2, true, "f2.jpg"⟩, ⟨0, 0, 5, true, "f5.jpg"⟩]

/-- Two keyframes that each introduce a new category under `envC`. -/
def framesC : List Frame :=
  [⟨0, 0, 0, true, "f0.jpg"⟩, ⟨1, 0, 1, true, "f1.jpg"⟩]

/-- A reverse pass touching the anchor (relative frame 0). -/
def revPass6 : List (Nat × FrameSeg) := [(0, [(1, ⟨[[false]], 3⟩)])]

/-- A forward pass touching the anchor with a different value. -/
def fwdPass6 : List (Nat × FrameSeg) :=
  [(0, [(1, ⟨[[true]], 7⟩)]), (1, [(1, ⟨[[true]], 8⟩)])]

/-- A frame segment holding one category-1 instance (object id 1,
score 10) followed by one category-2 instance (object id 2, score 20),
under a 2-category environment. -/
def itemsC2 : FrameSeg := [(1, ⟨[[true]], 10⟩), (2, ⟨[[true]], 20⟩)]

/-- A stub clip processor whose result covers exactly the clip's last
frame with a single object. -/
def cRes3 : List Frame → List PromptInfo → ClipRange → List (Nat × FrameSeg) :=
  fun _ _ cr => [(cr.end_idx, [(5, ⟨[[true]], 9⟩)])]

/-- A hypothetical two-clip plan fed to the orchestrator loop. -/
def plan3 : List (List PromptInfo × ClipRange) := [([], ⟨0, 0⟩), ([], ⟨1, 1⟩)]

/-!  ## Library lemmas  -/

theorem alookup_dictInsert_self {α : Type} (l : List (Nat × α)) (k : Nat) (v : α) :
    alookup (dictInsert l k v) k = some v := by
  induction l with
  | nil => simp [dictInsert, alookup]
  | cons kv rest ih =>
    by_cases h : kv.1 = k
    · simp [dictInsert, h, alookup]
    · simp [dictInsert, h, alookup, ih]

theorem alookup_dictInsert_ne {α : Type} (l : List (Nat × α)) (k k' : Nat) (v : α)
    (h : k' ≠ k) : alookup (dictInsert l k v) k' = alookup l k' := by
  have hkk : ¬ k = k' := fun hk => h hk.symm
  induction l with
  | nil => simp [dictInsert, alookup, hkk]
  | cons kv rest ih =>
    by_cases hk : kv.1 = k
    · simp [dictInsert, hk, alookup, hkk]
    · by_cases hk' : kv.1 = k'
      · simp [dictInsert, hk, alookup, hk', h]
      · simp [dictInsert, hk, alookup, hk', ih]

theorem alookup_dictUpdate_of_not_mem {α : Type} (other d : List (Nat × α)) (n : Nat)
    (h : ∀ kv ∈ other, kv.1 ≠ n) :
    alookup (dictUpdate d other) n = alookup d n := by
  induction other generalizing d with
  | nil => rfl
  | cons kv rest ih =>
    have hkv : kv.1 ≠ n := h kv (by simp)
    rw [dictUpdate, ih _ (fun x hx => h x (by simp [hx]))]
    exact alookup_dictInsert_ne _ _ _ _ (fun hn => hkv hn.symm)

theorem alookup_insertOrUnion_self (l : List (Nat × Mask)) (k : Nat) (m : Mask) :
    alookup (insertOrUnion l k m) k
      = some (match alookup l k with | none => m | some m0 => unionMask m0 m) := by
  induction l with
  | nil => simp [insertOrUnion, alookup]
  | cons km rest ih =>
    by_cases h : km.1 = k
    · simp [insertOrUnion, h, alookup]
    · simp [insertOrUnion, h, alookup, ih]

theorem alookup_insertOrUnion_ne (l : List (Nat × Mask)) (k k' : Nat) (m : Mask)
    (h : k' ≠ k) : alookup (insertOrUnion l k m) k' = alookup l k' := by
  have hkk : ¬ k = k' := fun hk => h hk.symm
  induction l with
  | nil => simp [insertOrUnion, alookup, hkk]
  | cons km rest ih =>
    by_cases hk : km.1 = k
    · simp [insertOrUnion, hk, alookup, hkk]
    · by_cases hk' : km.1 = k'
      · simp [insertOrUnion, hk, alookup, hk', h]
      · simp [insertOrUnion, hk, alookup, hk', ih]

theorem alookup_eq_none_iff {α : Type} (l : List (Nat × α)) (k : Nat) :
    alookup l k = none ↔ k ∉ l.map Prod.fst := by
  induction l with
  | nil => simp [alookup]
  | cons kv rest ih =>
    by_cases h : kv.1 = k
    · simp [alookup, h]
    · have h2 : ¬ k = kv.1 := fun hk => h hk.symm
      simp [alookup, h, h2, ih]

theorem keys_insertOrUnion_of_none (l : List (Nat × Mask)) (k : Nat) (m : Mask)
    (h : alookup l k = none) :
    (insertOrUnion l k m).map Prod.fst = l.map Prod.fst ++ [k] := by
  induction l with
  | nil => simp [insertOrUnion]
  | cons km rest ih =>
    have hk : km.1 ≠ k := by
      intro he
      simp [alookup, he] at h
    simp only [alookup, hk, if_false, if_neg hk] at h ⊢
    simp [insertOrUnion, hk, ih h]

theorem keys_insertOrUnion_of_some (l : List (Nat × Mask)) (k : Nat) (m m0 : Mask)
    (h : alookup l k = some m0) :
    (insertOrUnion l k m).map Prod.fst = l.map Prod.fst := by
  induction l with
  | nil => simp [alookup] at h
  | cons km rest ih =>
    by_cases hk : km.1 = k
    · simp [insertOrUnion, hk]
    · simp only [alookup, hk, if_neg hk] at h
      simp [insertOrUnion, hk, ih h]

theorem encode_ids_lower (num_cat : Nat) :
    ∀ (cats : List Nat) (cnt : Nat), ∀ x ∈ encode_ids num_cat cnt cats,
      cnt * (num_cat + 1) ≤ x := by
  intro cats
  induction cats with
  | nil => intro cnt x hx; simp [encode_ids] at hx
  | cons c rest ih =>
    intro cnt x hx
    simp only [encode_ids, List.mem_cons] at hx
    rcases hx with h | h
    · subst h
      exact Nat.le_add_right _ _
    · calc cnt * (num_cat + 1) ≤ (cnt + 1) * (num_cat + 1) :=
            Nat.mul_le_mul (Nat.le_succ cnt) (Nat.le_refl _)
        _ ≤ x := ih (cnt + 1) x h

theorem encode_ids_append (num_cat : Nat) (xs : List Nat) :
    ∀ (cnt : Nat) (ys : List Nat),
      encode_ids num_cat cnt (xs ++ ys)
        = encode_ids num_cat cnt xs ++ encode_ids num_cat (cnt + xs.length) ys := by
  induction xs with
  | nil => intro cnt ys; simp [encode_ids]
  | cons c rest ih =>
    intro cnt ys
    show encode_obj_id cnt num_cat c :: encode_ids num_cat (cnt + 1) (rest ++ ys)
        = encode_obj_id cnt num_cat c
            :: (encode_ids num_cat (cnt + 1) rest
                  ++ encode_ids num_cat (cnt + (rest.length + 1)) ys)
    rw [ih (cnt + 1) ys]
    have harg : cnt + 1 + rest.length = cnt + (rest.length + 1) := by omega
    rw [harg]

theorem objsOfMasks_ids (env : CocoEnv) (catId np : Nat) :
    ∀ (ms : List Mask) (cnt : Nat),
      (objsOfMasks env catId np ms cnt).1.map PromptObj.obj_id
          = encode_ids env.num_cat cnt (List.replicate ms.length catId)
        ∧ (objsOfMasks env catId np ms cnt).2 = cnt + ms.length := by
  intro ms
  induction ms with
  | nil => intro cnt; simp [objsOfMasks, encode_ids]
  | cons m rest ih =>
    intro cnt
    have h := ih (cnt + 1)
    constructor
    · simp only [objsOfMasks, List.map_cons, List.length_cons, List.replicate_succ,
        encode_ids, h.1]
    · simp only [objsOfMasks, h.2, List.length_cons]
      omega

/-- Bridge between `get_each_obj` and the abstract encode sequence: the
object ids it emits are exactly `encode_ids` over the per-instance
category list, starting at the incoming counter. -/
theorem annsLoop_ids (env : CocoEnv) (np : Nat) (cats : Option (List Nat)) :
    ∀ (anns : List CocoAnn) (cnt : Nat),
      (annsLoop env np cats anns cnt).1.map PromptObj.obj_id
          = encode_ids env.num_cat cnt (instanceCats env cats anns)
        ∧ (annsLoop env np cats anns cnt).2 = cnt + (instanceCats env cats anns).length := by
  intro anns
  induction anns with
  | nil => intro cnt; simp [annsLoop, instanceCats, encode_ids]
  | cons ann rest ih =>
    intro cnt
    by_cases h : matchesCats cats ann.category_id
    · have ho := objsOfMasks_ids env ann.category_id np
        (env.mask_to_masks ann.segmentation) cnt
      have hr := ih (cnt + (env.mask_to_masks ann.segmentation).length)
      constructor
      · simp only [annsLoop, if_pos h, instanceCats, List.map_append, ho.2, ho.1, hr.1,
          encode_ids_append, List.length_replicate]
      · simp only [annsLoop, if_pos h, instanceCats, ho.2, hr.2, List.length_append,
          List.length_replicate]
        omega
    · simpa only [annsLoop, if_neg h, instanceCats] using ih cnt


/-!  ## Claim C4  -/

/-- Claim C4: decoding an encoded object id recovers the category.  For
every value of the per-video instance counter and every category id in
[0, num_categories-1], `(counter * (num_categories + 1) + cat) mod
(num_categories + 1) = cat`; this is `decode_category` applied to
`encode_obj_id`, the two sides of the Object Identity Encoder. -/
theorem c4_decode_encode (cnt num_cat cat : Nat) (h : cat < num_cat) :
    decode_category num_cat (encode_obj_id cnt num_cat cat) = cat := by
  unfold decode_category encode_obj_id
  rw [Nat.mul_comm, Nat.mul_add_mod]
  exact Nat.mod_eq_of_lt (by omega)

theorem c4_decode_encode_witness :
    3 < 5 ∧ decode_category 5 (encode_obj_id 7 5 3) = 3 :=
  ⟨by decide, c4_decode_encode 7 5 3 (by decide)⟩

/-!  ## Claim C5  -/

/-- Claim C5: within one video (the counter starts at any value and
increments once per emitted instance, exactly the `OBJ_COUNT` discipline
of `get_each_obj`, see `annsLoop_ids`), the object ids produced for any
sequence of category ids in [0, num_categories] are pairwise distinct. -/
theorem c5_encode_ids_pairwise_ne (num_cat : Nat) (cats : List Nat) (cnt : Nat)
    (h : ∀ c ∈ cats, c ≤ num_cat) :
    (encode_ids num_cat cnt cats).Pairwise (· ≠ ·) := by
  induction cats generalizing cnt with
  | nil => simp [encode_ids]
  | cons c rest ih =>
    refine List.Pairwise.cons ?_ (ih (cnt + 1) (fun x hx => h x (by simp [hx])))
    intro x hx
    have hge := encode_ids_lower num_cat rest (cnt + 1) x hx
    have hc : c ≤ num_cat := h c (by simp)
    have hlt : encode_obj_id cnt num_cat c < (cnt + 1) * (num_cat + 1) := by
      calc encode_obj_id cnt num_cat c
          = cnt * (num_cat + 1) + c := rfl
        _ < cnt * (num_cat + 1) + (num_cat + 1) := Nat.add_lt_add_left (by omega) _
        _ = (cnt + 1) * (num_cat + 1) := (Nat.succ_mul cnt (num_cat + 1)).symm
    exact Nat.ne_of_lt (lt_of_lt_of_le hlt hge)

theorem c5_encode_ids_pairwise_ne_witness :
    (∀ c ∈ [1, 2, 0], c ≤ 2) ∧ (encode_ids 2 5 [1, 2, 0]).Pairwise (· ≠ ·) :=
  ⟨by decide, c5_encode_ids_pairwise_ne 2 [1, 2, 0] 5 (by decide)⟩

/-!  ## Claim C6  -/

theorem alookup_passFold_of_not_mem (start_idx : Nat) :
    ∀ (l acc : List (Nat × FrameSeg)) (k : Nat),
      (∀ p ∈ l, p.1 + start_idx ≠ k) →
      alookup (passFold start_idx l acc) k = alookup acc k := by
  intro l
  induction l with
  | nil => intro acc k _; rfl
  | cons p rest ih =>
    intro acc k h
    rw [passFold, ih _ _ (fun q hq => h q (by simp [hq]))]
    exact alookup_dictInsert_ne _ _ _ _ (fun hk => h p (by simp) hk.symm)

theorem alookup_passFold_of_mem (start_idx : Nat) :
    ∀ (l acc : List (Nat × FrameSeg)) (f : Nat) (seg : FrameSeg),
      (f, seg) ∈ l → (l.map Prod.fst).Nodup →
      alookup (passFold start_idx l acc) (f + start_idx) = some seg := by
  intro l
  induction l with
  | nil => intro acc f seg h _; simp at h
  | cons p rest ih =>
    intro acc f seg hmem hnodup
    have hnodup2 : (p.1 :: rest.map Prod.fst).Nodup := by simpa using hnodup
    have hnd := List.nodup_cons.mp hnodup2
    rcases List.mem_cons.mp hmem with he | hrest
    · have hp1 : p.1 = f := by rw [← he]
      have hp2 : p.2 = seg := by rw [← he]
      rw [passFold]
      rw [alookup_passFold_of_not_mem start_idx rest _ _ ?hne]
      · rw [hp1, hp2]
        exact alookup_dictInsert_self _ _ _
      case hne =>
        intro q hq hqe
        have hq1 : q.1 = f := by omega
        have hf : f ∈ rest.map Prod.fst := hq1 ▸ List.mem_map_of_mem Prod.fst hq
        exact hnd.1 (hp1.symm ▸ hf)
    · rw [passFold]
      exact ih _ f seg hrest hnd.2

/-- Claim C6: `predict_on_video` writes the reverse pass into the output
map first and the forward pass second, so for any frame delivered by the
forward pass (in particular the prompt anchor, the one frame both passes
can touch) the retained per-frame map - hence every object's
(mask, score) - is the forward pass's value. -/
theorem c6_forward_overwrites (reversePass forwardPass : List (Nat × FrameSeg))
    (start_idx f : Nat) (seg : FrameSeg)
    (hmem : (f, seg) ∈ forwardPass)
    (hnodup : (forwardPass.map Prod.fst).Nodup) :
    alookup (predict_on_video reversePass forwardPass start_idx) (f + start_idx)
      = some seg :=
  alookup_passFold_of_mem start_idx forwardPass _ f seg hmem hnodup

theorem c6_forward_overwrites_witness :
    ((0 : Nat), ([(1, (⟨[[true]], 7⟩ : MaskInfo))] : FrameSeg)) ∈ fwdPass6
      ∧ (fwdPass6.map Prod.fst).Nodup
      ∧ alookup (predict_on_video revPass6 fwdPass6 2) (0 + 2)
          = some [(1, ⟨[[true]], 7⟩)] :=
  ⟨by decide, by decide,
    c6_forward_overwrites revPass6 fwdPass6 2 0 _ (by decide) (by decide)⟩

/-!  ## Claim C9  -/

theorem gpfcLoop_error_of_some (env : CocoEnv) :
    ∀ (frames : List Frame) (existing : List Nat) (p : PromptInfo × Nat) (cnt : Nat),
      1 ≤ (introducersLoop env frames existing).length →
      ∃ e, gpfcLoop env frames existing (some p) cnt = .error e := by
  intro frames
  induction frames with
  | nil => intro existing p cnt h; simp [introducersLoop] at h
  | cons f rest ih =>
    intro existing p cnt h
    by_cases hk : f.is_det_keyframe = false
    · simp only [introducersLoop, if_pos hk] at h
      simpa only [gpfcLoop, if_pos hk] using ih existing p cnt h
    · by_cases hs : ((get_num_categories env f).all (fun c => existing.contains c)) = true
      · simp only [introducersLoop, if_neg hk, if_pos hs] at h
        simpa only [gpfcLoop, if_neg hk, if_pos hs] using ih existing p cnt h
      · refine ⟨"TypeError: list.append takes exactly one argument - 2 given", ?_⟩
        simp only [gpfcLoop, if_neg hk, if_neg hs]

theorem gpfcLoop_error_of_none (env : CocoEnv) :
    ∀ (frames : List Frame) (existing : List Nat) (cnt : Nat),
      2 ≤ (introducersLoop env frames existing).length →
      ∃ e, gpfcLoop env frames existing none cnt = .error e := by
  intro frames
  induction frames with
  | nil => intro existing cnt h; simp [introducersLoop] at h
  | cons f rest ih =>
    intro existing cnt h
    by_cases hk : f.is_det_keyframe = false
    · simp only [introducersLoop, if_pos hk] at h
      simpa only [gpfcLoop, if_pos hk] using ih existing cnt h
    · by_cases hs : ((get_num_categories env f).all (fun c => existing.contains c)) = true
      · simp only [introducersLoop, if_neg hk, if_pos hs] at h
        simpa only [gpfcLoop, if_neg hk, if_pos hs] using ih existing cnt h
      · simp only [introducersLoop, if_neg hk, if_neg hs, List.length_cons] at h
        simp only [gpfcLoop, if_neg hk, if_neg hs]
        exact gpfcLoop_error_of_some env rest _ _ _ (by omega)

/-- Claim C9: in category-growth mode, whenever at least two keyframes
introduce new categories (so at least one interior clip must be closed),
the planner's two-argument `list.append` raises a TypeError, and
category-growth processing of the video cannot complete: the orchestrator
returns the error instead of a result. -/
theorem c9_category_growth_type_error (env : CocoEnv)
    (clipResult : List Frame → List PromptInfo → ClipRange → List (Nat × FrameSeg))
    (frames : List Frame) (prompt_type : String) (clip_length : Option Nat)
    (h : 2 ≤ (introducers env frames).length) :
    ∃ e, process_singel_video env clipResult frames prompt_type clip_length true
      = .error e := by
  obtain ⟨e, he⟩ := gpfcLoop_error_of_none env frames [] 0 h
  refine ⟨e, ?_⟩
  simp only [process_singel_video, get_prompts_from_categories, he, if_true]

theorem c9_category_growth_type_error_witness :
    2 ≤ (introducers envC framesC).length
      ∧ ∃ e, process_singel_video envC (fun _ _ _ => []) framesC "points" none true
          = .error e :=
  ⟨by decide,
    c9_category_growth_type_error envC (fun _ _ _ => []) framesC "points" none
      (by decide)⟩

/-!  ## Claim C10  -/

theorem mem_insertByOrder (f a : Frame) :
    ∀ l, a ∈ insertByOrder f l ↔ a = f ∨ a ∈ l := by
  intro l
  induction l with
  | nil => simp [insertByOrder]
  | cons g rest ih =>
    by_cases h : f.order_in_video ≤ g.order_in_video
    · simp [insertByOrder, h]
    · simp only [insertByOrder, if_neg h, List.mem_cons, ih]
      tauto

theorem mem_sortFramesByOrder (a : Frame) (l : List Frame) :
    a ∈ sortFramesByOrder l ↔ a ∈ l := by
  induction l with
  | nil => simp [sortFramesByOrder]
  | cons f rest ih =>
    simp only [sortFramesByOrder, List.foldr_cons] at ih ⊢
    rw [mem_insertByOrder, ih, List.mem_cons]

theorem saveFramesLoop_error (env : CocoEnv) (video_segments : List (Nat × FrameSeg)) :
    ∀ (l : List Frame) (acc : List AnnRecord),
      (∃ f ∈ l, f.is_det_keyframe = true
        ∧ alookup video_segments f.order_in_video = none) →
      ∃ e, saveFramesLoop env video_segments l acc = .error e := by
  intro l
  induction l with
  | nil => intro acc h; simp at h
  | cons g rest ih =>
    intro acc h
    obtain ⟨f, hf, hkf, hmiss⟩ := h
    by_cases hg : g.is_det_keyframe = false
    · simp only [saveFramesLoop, if_pos hg]
      apply ih
      rcases List.mem_cons.mp hf with he | hr
      · exact absurd (he ▸ hkf) (by simp [hg])
      · exact ⟨f, hr, hkf, hmiss⟩
    · cases hlook : alookup video_segments g.order_in_video with
      | none =>
        refine ⟨"KeyError: frame ordinal absent from video segments", ?_⟩
        simp only [saveFramesLoop, if_neg hg, hlook]
      | some items =>
        simp only [saveFramesLoop, if_neg hg, hlook]
        apply ih
        rcases List.mem_cons.mp hf with he | hr
        · rw [he] at hmiss
          rw [hmiss] at hlook
          cases hlook
        · exact ⟨f, hr, hkf, hmiss⟩

/-- Claim C10: during output assembly, a keyframe of a saved video whose
frame ordinal is absent from the video's merged segment map (for example
a keyframe inside a skipped clip's range) makes the per-video loop of
`save_as_coco_format` raise KeyError, rather than emitting no records for
that frame. -/
theorem c10_missing_keyframe_keyerror (env : CocoEnv)
    (video_segments : List (Nat × FrameSeg)) (frames : List Frame) (f : Frame)
    (hf : f ∈ frames) (hkf : f.is_det_keyframe = true)
    (hmiss : alookup video_segments f.order_in_video = none) :
    ∃ e, save_video_records env video_segments frames = .error e := by
  apply saveFramesLoop_error
  exact ⟨f, (mem_sortFramesByOrder f frames).mpr hf, hkf, hmiss⟩

theorem c10_missing_keyframe_keyerror_witness :
    (⟨0, 0, 0, true, "f0.jpg"⟩ : Frame) ∈ framesA
      ∧ (⟨0, 0, 0, true, "f0.jpg"⟩ : Frame).is_det_keyframe = true
      ∧ alookup ([] : List (Nat × FrameSeg)) 0 = none
      ∧ ∃ e, save_video_records envA [] framesA = .error e :=
  ⟨by decide, by decide, by decide,
    c10_missing_keyframe_keyerror envA [] framesA ⟨0, 0, 0, true, "f0.jpg"⟩
      (by decide) (by decide) (by decide)⟩

/-!  ## Claim C8  -/

/-- Claim C8 counterexample: on a frame list that is not sorted by
ordinal, `find_prompt_frame` returns the first qualifying keyframe in
list iteration order (here the one with ordinal 5), even though a
qualifying keyframe with the strictly smaller ordinal 2 is in range - so
the selected frame is not "the keyframe with the smallest order_in_video
within the range that has at least one annotation". -/
theorem c8_not_min_order_counterexample :
    (find_prompt_frame envB framesUnsorted ⟨0, 9⟩).map Frame.order_in_video = some 5
      ∧ promptFramePred envB ⟨0, 9⟩ ⟨1, 0, 2, true, "f2.jpg"⟩ = true
      ∧ (⟨1, 0, 2, true, "f2.jpg"⟩ : Frame) ∈ framesUnsorted
      ∧ (2 : Nat) < 5 := by
  refine ⟨?_, ?_, ?_, ?_⟩ <;> decide

/-- Claim C8 amended: the prompt frame is the first frame in the list's
iteration order that passes the keyframe / in-range / has-annotations
guards (no scoring among candidates); when the frame list is sorted
ascending by `order_in_video`, that first qualifier has the smallest
ordinal among all qualifying frames, which is what the claim describes. -/
theorem c8_first_qualifying_min_order (env : CocoEnv) (frames : List Frame)
    (cr : ClipRange) (f : Frame)
    (hsorted : frames.Pairwise (fun a b => a.order_in_video ≤ b.order_in_video))
    (hfind : find_prompt_frame env frames cr = some f) :
    promptFramePred env cr f = true
      ∧ ∀ g ∈ frames, promptFramePred env cr g = true →
          f.order_in_video ≤ g.order_in_video := by
  induction frames with
  | nil => cases hfind
  | cons a rest ih =>
    unfold find_prompt_frame at hfind
    have hpw := List.pairwise_cons.mp hsorted
    cases hp : promptFramePred env cr a with
    | true =>
      rw [List.find?_cons_of_pos _ hp] at hfind
      injection hfind with hfa
      subst hfa
      refine ⟨hp, ?_⟩
      intro g hg _
      rcases List.mem_cons.mp hg with he | hgr
      · rw [he]
      · exact hpw.1 g hgr
    | false =>
      rw [List.find?_cons_of_neg _ (by simp [hp])] at hfind
      have hrec := ih hpw.2 hfind
      refine ⟨hrec.1, ?_⟩
      intro g hg hgq
      rcases List.mem_cons.mp hg with he | hgr
      · rw [he] at hgq
        rw [hgq] at hp
        cases hp
      · exact hrec.2 g hgr hgq

theorem c8_first_qualifying_min_order_witness :
    framesSorted.Pairwise (fun a b => a.order_in_video ≤ b.order_in_video)
      ∧ find_prompt_frame envB framesSorted ⟨0, 9⟩ = some ⟨1, 0, 2, true, "f2.jpg"⟩
      ∧ (promptFramePred envB ⟨0, 9⟩ (⟨1, 0, 2, true, "f2.jpg"⟩ : Frame) = true
          ∧ ∀ g ∈ framesSorted, promptFramePred envB ⟨0, 9⟩ g = true →
              (⟨1, 0, 2, true, "f2.jpg"⟩ : Frame).order_in_video ≤ g.order_in_video) :=
  ⟨by decide, by decide,
    c8_first_qualifying_min_order envB framesSorted ⟨0, 9⟩ _ (by decide) (by decide)⟩

/-!  ## Claim C1  -/

theorem fixedRangesFrom_nil (n L : Nat) :
    ∀ (fuel s : Nat), ¬ s < n → fixedRangesFrom n L fuel s = [] := by
  intro fuel s h
  cases fuel with
  | zero => rfl
  | succ fuel => rw [fixedRangesFrom, if_neg h]

theorem tilesFrom_fixedRangesFrom (n L : Nat) (hL : 1 ≤ L) :
    ∀ (fuel s : Nat), s < n → n - s ≤ fuel →
      tilesFrom s n (fixedRangesFrom n L fuel s) = true := by
  intro fuel
  induction fuel with
  | zero => intro s hs hf; omega
  | succ fuel ih =>
    intro s hs hf
    rw [fixedRangesFrom, if_pos hs]
    by_cases hnext : s + L < n
    · have hmin : min (s + L - 1) (n - 1) = s + L - 1 := by omega
      have hsucc : s + L - 1 + 1 = s + L := by omega
      have hrec := ih (s + L) hnext (by omega)
      rw [hmin, tilesFrom, hsucc, hrec]
      simp
      omega
    · have hmin : min (s + L - 1) (n - 1) = n - 1 := by omega
      have hsucc : n - 1 + 1 = n := by omega
      rw [hmin, tilesFrom, hsucc, fixedRangesFrom_nil n L fuel (s + L) (by omega),
        tilesFrom]
      simp
      omega

theorem getClipPromptsLoop_ranges (env : CocoEnv) (frames : List Frame)
    (prompt_type : String) :
    ∀ (crs : List ClipRange) (cnt : Nat),
      (getClipPromptsLoop env frames prompt_type crs cnt).1.map Prod.snd
        = crs.filter (fun cr => (find_prompt_frame env frames cr).isSome) := by
  intro crs
  induction crs with
  | nil => intro cnt; rfl
  | cons cr rest ih =>
    intro cnt
    cases hf : find_prompt_frame env frames cr with
    | none => simp [getClipPromptsLoop, hf, ih]
    | some pf => simp [getClipPromptsLoop, hf, ih]

/-- Claim C1 counterexample: with two frames, clip length 1 and only the
first frame annotated (the second frame is not a keyframe), fixed-length
mode emits only the range [0, 0] - the range [1, 1] is skipped for lack
of a prompt frame - so the ordered set of emitted ClipRange values does
NOT tile [0, N-1]: the claim fails on the code. -/
theorem c1_emitted_gap_counterexample :
    (get_clip_prompts envA framesA "points" (some 1) 0).1.map Prod.snd = [⟨0, 0⟩]
      ∧ tilesFrom 0 framesA.length
          ((get_clip_prompts envA framesA "points" (some 1) 0).1.map Prod.snd)
          = false := by
  refine ⟨?_, ?_⟩ <;> decide

/-- Claim C1 amended: in fixed-length mode the CANDIDATE ranges walked by
the planner's loop tile [0, N-1] exactly (contiguous, starting at 0,
ending at N-1, non-overlapping), and the ranges actually emitted are the
candidates whose clip has a prompt frame, in the same order - hence
sorted, pairwise disjoint and contained in [0, N-1], but leaving a gap
for every skipped clip.  (In category-growth mode the invariant fails
differently: consecutive emitted ranges share their boundary frame.) -/
theorem c1_fixed_candidates_tile (env : CocoEnv) (frames : List Frame)
    (prompt_type : String) (L cnt : Nat) (hL : 1 ≤ L) (hN : 1 ≤ frames.length) :
    tilesFrom 0 frames.length (fixedRanges frames.length L) = true
      ∧ (get_clip_prompts env frames prompt_type (some L) cnt).1.map Prod.snd
          = (fixedRanges frames.length L).filter
              (fun cr => (find_prompt_frame env frames cr).isSome) := by
  constructor
  · exact tilesFrom_fixedRangesFrom frames.length L hL frames.length 0 (by omega)
      (by omega)
  · simpa only [get_clip_prompts, Option.getD_some] using
      getClipPromptsLoop_ranges env frames prompt_type
        (fixedRanges frames.length L) cnt

theorem c1_fixed_candidates_tile_witness :
    1 ≤ 2 ∧ 1 ≤ framesA.length
      ∧ (tilesFrom 0 framesA.length (fixedRanges framesA.length 2) = true
          ∧ (get_clip_prompts envA framesA "points" (some 2) 0).1.map Prod.snd
              = (fixedRanges framesA.length 2).filter
                  (fun cr => (find_prompt_frame envA framesA cr).isSome)) :=
  ⟨by decide, by decide,
    c1_fixed_candidates_tile envA framesA "points" 2 0 (by decide) (by decide)⟩

/-!  ## Claim C7  -/

theorem mem_fixedRangesFrom (n L : Nat) :
    ∀ (fuel s : Nat) (cr : ClipRange), cr ∈ fixedRangesFrom n L fuel s →
      ∃ k, cr.start_idx = s + k * L ∧ cr.start_idx < n
        ∧ cr.end_idx = min (cr.start_idx + L - 1) (n - 1) := by
  intro fuel
  induction fuel with
  | zero => intro s cr h; simp [fixedRangesFrom] at h
  | succ fuel ih =>
    intro s cr h
    rw [fixedRangesFrom] at h
    by_cases hs : s < n
    · rw [if_pos hs] at h
      rcases List.mem_cons.mp h with he | hr
      · subst he
        refine ⟨0, ?_, hs, ?_⟩
        · simp
        · rfl
      · obtain ⟨k, hk1, hk2, hk3⟩ := ih (s + L) cr hr
        refine ⟨k + 1, ?_, hk2, hk3⟩
        have hmul : (k + 1) * L = k * L + L := Nat.succ_mul k L
        omega
    · rw [if_neg hs] at h
      simp at h

theorem fixedRanges_disjoint (n L : Nat) (hL : 1 ≤ L) (cr cr2 : ClipRange)
    (h1 : cr ∈ fixedRanges n L) (h2 : cr2 ∈ fixedRanges n L) (hne : cr ≠ cr2)
    (m : Nat) (hm1 : cr.start_idx ≤ m) (hm2 : m ≤ cr.end_idx) :
    ¬ (cr2.start_idx ≤ m ∧ m ≤ cr2.end_idx) := by
  obtain ⟨k1, ha1, hb1, hc1⟩ := mem_fixedRangesFrom n L n 0 cr h1
  obtain ⟨k2, ha2, hb2, hc2⟩ := mem_fixedRangesFrom n L n 0 cr2 h2
  rintro ⟨hm3, hm4⟩
  have hkne : k1 ≠ k2 := by
    intro hk
    apply hne
    subst hk
    have hs : cr.start_idx = cr2.start_idx := by omega
    have he : cr.end_idx = cr2.end_idx := by rw [hc1, hc2, hs]
    cases cr
    cases cr2
    simp only at hs he
    simp [hs, he]
  rcases Nat.lt_trichotomy k1 k2 with hlt | heq | hgt
  · have hmul : (k1 + 1) * L = k1 * L + L := Nat.succ_mul k1 L
    have hmul2 : (k1 + 1) * L ≤ k2 * L := Nat.mul_le_mul_right L (by omega)
    omega
  · exact hkne heq
  · have hmul : (k2 + 1) * L = k2 * L + L := Nat.succ_mul k2 L
    have hmul2 : (k2 + 1) * L ≤ k1 * L := Nat.mul_le_mul_right L (by omega)
    omega

theorem runClipsLoop_false_eq (env : CocoEnv)
    (cRes : List Frame → List PromptInfo → ClipRange → List (Nat × FrameSeg))
    (frames : List Frame) (pt : String) :
    ∀ (plan : List (List PromptInfo × ClipRange)) (segs : List (Nat × FrameSeg))
      (log : List (List PromptInfo × ClipRange)) (prev : Option PromptInfo),
      runClipsLoop env cRes frames pt false plan segs log prev
        = .ok ⟨plan.foldl (fun s e => dictUpdate s (cRes frames e.1 e.2)) segs,
            log ++ plan⟩ := by
  intro plan
  induction plan with
  | nil => intro segs log prev; simp [runClipsLoop]
  | cons e rest ih =>
    intro segs log prev
    obtain ⟨cps0, cr⟩ := e
    simp only [runClipsLoop, ih, List.foldl_cons, List.append_assoc, List.singleton_append]

theorem alookup_foldl_update_none
    (cRes : List Frame → List PromptInfo → ClipRange → List (Nat × FrameSeg))
    (frames : List Frame) (n : Nat) :
    ∀ (plan : List (List PromptInfo × ClipRange)) (segs : List (Nat × FrameSeg)),
      alookup segs n = none →
      (∀ e ∈ plan, ∀ kv ∈ cRes frames e.1 e.2, kv.1 ≠ n) →
      alookup (plan.foldl (fun s e => dictUpdate s (cRes frames e.1 e.2)) segs) n
        = none := by
  intro plan
  induction plan with
  | nil => intro segs hn _; exact hn
  | cons e rest ih =>
    intro segs hn hplan
    rw [List.foldl_cons]
    apply ih
    · rw [alookup_dictUpdate_of_not_mem _ _ _ (hplan e (by simp))]
      exact hn
    · exact fun e2 he2 => hplan e2 (by simp [he2])

/-- Claim C7: in fixed-length mode, a candidate clip range with no
qualifying keyframe is warned about and skipped: it is never submitted to
the Clip Processor, and - provided each processed clip's results stay
inside its own range, which holds because `predict_on_video` offsets the
staged clip's relative indices by `start_idx` - the video-level result
holds no entry for any frame ordinal in the skipped range (the frames are
absent, not zero-filled). -/
theorem c7_skipped_clip_frames_absent (env : CocoEnv)
    (cRes : List Frame → List PromptInfo → ClipRange → List (Nat × FrameSeg))
    (frames : List Frame) (prompt_type : String) (L : Nat) (r : ClipRange)
    (hL : 1 ≤ L)
    (hdom : ∀ e ∈ (get_clip_prompts env frames prompt_type (some L) 0).1,
        ∀ kv ∈ cRes frames e.1 e.2, e.2.start_idx ≤ kv.1 ∧ kv.1 ≤ e.2.end_idx)
    (hr : r ∈ fixedRanges frames.length L)
    (hskip : find_prompt_frame env frames r = none) :
    r ∈ getClipWarnings env frames (some L)
      ∧ ∃ res, process_singel_video env cRes frames prompt_type (some L) false
            = .ok res
          ∧ ∀ n, r.start_idx ≤ n → n ≤ r.end_idx → alookup res.segments n = none := by
  constructor
  · simp only [getClipWarnings, Option.getD_some]
    exact List.mem_filter.mpr ⟨hr, by simp [hskip]⟩
  · refine ⟨⟨(get_clip_prompts env frames prompt_type (some L) 0).1.foldl
        (fun s e => dictUpdate s (cRes frames e.1 e.2)) [],
        [] ++ (get_clip_prompts env frames prompt_type (some L) 0).1⟩, ?_, ?_⟩
    · unfold process_singel_video
      rw [if_neg (by simp)]
      exact runClipsLoop_false_eq env cRes frames prompt_type _ [] [] none
    · intro n hn1 hn2
      apply alookup_foldl_update_none
      · rfl
      · intro e he kv hkv hkvn
        have hrange := hdom e he kv hkv
        have hmemsnd : e.2 ∈ (get_clip_prompts env frames prompt_type (some L) 0).1.map
            Prod.snd := List.mem_map_of_mem Prod.snd he
        rw [show (get_clip_prompts env frames prompt_type (some L) 0).1.map Prod.snd
              = (fixedRanges frames.length L).filter
                  (fun cr => (find_prompt_frame env frames cr).isSome) from by
            simpa only [get_clip_prompts, Option.getD_some] using
              getClipPromptsLoop_ranges env frames prompt_type
                (fixedRanges frames.length L) 0] at hmemsnd
        have hcand := (List.mem_filter.mp hmemsnd).1
        have hsome := (List.mem_filter.mp hmemsnd).2
        have hner : r ≠ e.2 := by
          intro hh
          rw [← hh, hskip] at hsome
          simp at hsome
        exact fixedRanges_disjoint frames.length L hL r e.2 hr hcand hner n hn1 hn2
          ⟨by omega, by omega⟩

theorem c7_skipped_clip_frames_absent_witness :
    1 ≤ 1
      ∧ (∀ e ∈ (get_clip_prompts envA framesA "points" (some 1) 0).1,
          ∀ kv ∈ (fun (_ : List Frame) (_ : List PromptInfo) (cr : ClipRange) =>
              [(cr.start_idx, ([] : FrameSeg))]) framesA e.1 e.2,
            e.2.start_idx ≤ kv.1 ∧ kv.1 ≤ e.2.end_idx)
      ∧ (⟨1, 1⟩ : ClipRange) ∈ fixedRanges framesA.length 1
      ∧ find_prompt_frame envA framesA ⟨1, 1⟩ = none
      ∧ ((⟨1, 1⟩ : ClipRange) ∈ getClipWarnings envA framesA (some 1)
          ∧ ∃ res, process_singel_video envA
                (fun _ _ cr => [(cr.start_idx, ([] : FrameSeg))])
                framesA "points" (some 1) false = .ok res
              ∧ ∀ n, (⟨1, 1⟩ : ClipRange).start_idx ≤ n →
                  n ≤ (⟨1, 1⟩ : ClipRange).end_idx →
                  alookup res.segments n = none) :=
  ⟨by decide, by decide, by decide, by decide,
    c7_skipped_clip_frames_absent envA (fun _ _ cr => [(cr.start_idx, [])])
      framesA "points" 1 ⟨1, 1⟩ (by decide) (by decide) (by decide) (by decide)⟩

/-!  ## Claim C2  -/

theorem mergeLoop_score (n : Nat) :
    ∀ (items : FrameSeg) (merged : List (Nat × Mask)) (sc : Option Nat),
      (mergeLoop n items merged sc).2
        = match items.getLast? with
          | some kv => some kv.2.score
          | none => sc := by
  intro items
  induction items with
  | nil => intro merged sc; rfl
  | cons kv rest ih =>
    intro merged sc
    rw [mergeLoop, ih]
    cases rest with
    | nil => rfl
    | cons kv2 rest2 =>
      rw [List.getLast?_cons_cons]
      cases hgl : (kv2 :: rest2).getLast? with
      | none => simp at hgl
      | some x => rfl

theorem alookup_mergeLoop (n k : Nat) :
    ∀ (items : FrameSeg) (merged : List (Nat × Mask)) (sc : Option Nat),
      alookup (mergeLoop n items merged sc).1 k
        = ouAppend (alookup merged k) (catMasks n k items) := by
  intro items
  induction items with
  | nil => intro merged sc; simp [mergeLoop, catMasks, ouAppend]
  | cons kv rest ih =>
    intro merged sc
    rw [mergeLoop, ih]
    by_cases hk : decode_category n kv.1 = k
    · rw [hk, alookup_insertOrUnion_self]
      have hcm : catMasks n k (kv :: rest)
          = reduceOrAxis0 kv.2.mask :: catMasks n k rest := by
        simp [catMasks, hk]
      rw [hcm]
      cases ho : alookup merged k with
      | none => rfl
      | some m0 => rfl
    · have hkk : k ≠ decode_category n kv.1 := fun he => hk he.symm
      rw [alookup_insertOrUnion_ne _ _ _ _ hkk]
      have hcm : catMasks n k (kv :: rest) = catMasks n k rest := by
        simp [catMasks, hk]
      rw [hcm]

theorem mergeLoop_keys_nodup (n : Nat) :
    ∀ (items : FrameSeg) (merged : List (Nat × Mask)) (sc : Option Nat),
      (merged.map Prod.fst).Nodup →
      ((mergeLoop n items merged sc).1.map Prod.fst).Nodup := by
  intro items
  induction items with
  | nil => intro merged sc h; exact h
  | cons kv rest ih =>
    intro merged sc h
    rw [mergeLoop]
    apply ih
    cases ho : alookup merged (decode_category n kv.1) with
    | some m0 =>
      rw [keys_insertOrUnion_of_some _ _ _ _ ho]
      exact h
    | none =>
      rw [keys_insertOrUnion_of_none _ _ _ ho]
      have hk := (alookup_eq_none_iff _ _).mp ho
      rw [List.nodup_append]
      refine ⟨h, by simp, ?_⟩
      intro a ha hak
      simp at hak
      subst hak
      exact hk ha

theorem filterEmit_lookup (env : CocoEnv) (fid sc cat : Nat) :
    ∀ (md : List (Nat × Mask)), (md.map Prod.fst).Nodup →
      (md.filterMap (emitAnn env fid sc)).filter (fun a => a.category_id == cat)
        = match alookup md cat with
          | none => []
          | some m => if maskSum m = 0 then []
              else [⟨fid, cat, m, env.mask_to_bbox m, 0, sc⟩] := by
  intro md
  induction md with
  | nil => intro h; rfl
  | cons km rest ih =>
    intro h
    have h2 : (km.1 :: rest.map Prod.fst).Nodup := by simpa using h
    have hnd := List.nodup_cons.mp h2
    rw [List.filterMap_cons]
    by_cases hk : km.1 = cat
    · have hnotin : cat ∉ rest.map Prod.fst := hk ▸ hnd.1
      have hrest : (rest.filterMap (emitAnn env fid sc)).filter
          (fun a => a.category_id == cat) = [] := by
        rw [ih hnd.2, (alookup_eq_none_iff rest cat).mpr hnotin]
      cases he : emitAnn env fid sc km with
      | none =>
        have hz : maskSum km.2 = 0 := by
          unfold emitAnn at he
          by_cases hz : maskSum km.2 = 0
          · exact hz
          · rw [if_neg hz] at he; cases he
        simp only [alookup, if_pos hk]
        simp [hz, hrest]
      | some a =>
        have hz : ¬ maskSum km.2 = 0 := by
          unfold emitAnn at he
          by_cases hz : maskSum km.2 = 0
          · rw [if_pos hz] at he; cases he
          · exact hz
        have ha : a = ⟨fid, km.1, km.2, env.mask_to_bbox km.2, 0, sc⟩ := by
          unfold emitAnn at he
          rw [if_neg hz] at he
          injection he with h3
          exact h3.symm
        subst ha
        simp only [alookup, if_pos hk]
        simp [List.filter_cons, hk, hrest, hz]
    · cases he : emitAnn env fid sc km with
      | none =>
        simp only [alookup, if_neg hk]
        exact ih hnd.2
      | some a =>
        have ha : a.category_id = km.1 := by
          unfold emitAnn at he
          by_cases hz : maskSum km.2 = 0
          · rw [if_pos hz] at he; cases he
          · rw [if_neg hz] at he
            injection he with h3
            rw [← h3]
        have hpa : (a.category_id == cat) = false := by simp [ha, hk]
        simp only [alookup, if_neg hk]
        rw [List.filter_cons, if_neg (by simp [hpa])]
        exact ih hnd.2

/-- Claim C2 counterexample: a frame whose object map holds one
category-1 instance with score 10 followed by one category-2 instance
with score 20 (num_categories = 2).  The emitted record for category 1
carries score 20 - the score of the last instance merged in the WHOLE
frame, across categories - although the last (and only) instance merged
for category 1 has score 10, refuting the per-category-last claim. -/
theorem c2_score_not_per_category_counterexample :
    (frameAnnRecords envA 7 itemsC2).map (fun a => (a.category_id, a.score))
        = [(1, 20), (2, 20)]
      ∧ (itemsC2.filter (fun kv => decode_category envA.num_cat kv.1 == 1)).map
          (fun kv => kv.2.score) = [10]
      ∧ (20 : Nat) ≠ 10 := by
  refine ⟨?_, ?_, ?_⟩ <;> decide

/-- Claim C2 amended: for every keyframe and every category with a
non-empty merged mask, the Mask Reassembler emits exactly one record
whose mask is the boolean OR, in iteration order, of all instance masks
decoding to that category in that frame - but whose confidence score is
the score of the LAST instance iterated in the frame's whole object map,
across all categories (not the last instance merged for that category). -/
theorem c2_union_mask_last_frame_score (env : CocoEnv) (fid : Nat)
    (items : FrameSeg) (cat : Nat) (m : Mask) (kv : Nat × MaskInfo)
    (hm : catUnion env.num_cat cat items = some m)
    (hne : maskSum m ≠ 0)
    (hlast : items.getLast? = some kv) :
    (frameAnnRecords env fid items).filter (fun a => a.category_id == cat)
      = [⟨fid, cat, m, env.mask_to_bbox m, 0, kv.2.score⟩] := by
  have hsc2 : (mergeMasks env.num_cat items).2 = some kv.2.score := by
    show (mergeLoop env.num_cat items [] none).2 = some kv.2.score
    rw [mergeLoop_score, hlast]
  have hl2 : alookup (mergeMasks env.num_cat items).1 cat = some m := by
    show alookup (mergeLoop env.num_cat items [] none).1 cat = some m
    rw [alookup_mergeLoop]
    exact hm
  have hnodup : ((mergeMasks env.num_cat items).1.map Prod.fst).Nodup := by
    show ((mergeLoop env.num_cat items [] none).1.map Prod.fst).Nodup
    exact mergeLoop_keys_nodup env.num_cat items [] none (by simp)
  unfold frameAnnRecords
  rw [hsc2]
  simp only [Option.getD_some]
  rw [filterEmit_lookup env fid kv.2.score cat _ hnodup, hl2]
  simp [hne]

theorem c2_union_mask_last_frame_score_witness :
    catUnion envA.num_cat 1 itemsC2 = some [true]
      ∧ maskSum [true] ≠ 0
      ∧ itemsC2.getLast? = some (2, ⟨[[true]], 20⟩)
      ∧ (frameAnnRecords envA 7 itemsC2).filter (fun a => a.category_id == 1)
          = [⟨7, 1, [true], envA.mask_to_bbox [true], 0,
              ((2, (⟨[[true]], 20⟩ : MaskInfo))).2.score⟩] :=
  ⟨by decide, by decide, by decide,
    c2_union_mask_last_frame_score envA 7 itemsC2 1 [true] (2, ⟨[[true]], 20⟩)
      (by decide) (by decide) (by decide)⟩

/-!  ## Claim C3  -/

theorem get_obj_from_masks_skips_empty (env : CocoEnv) :
    ∀ seg : FrameSeg,
      get_obj_from_masks env seg
        = get_obj_from_masks env
            (seg.filter (fun kv => decide (¬ (kv.2.mask.map maskSum).sum = 0))) := by
  intro seg
  induction seg with
  | nil => rfl
  | cons kv rest ih =>
    by_cases hz : (kv.2.mask.map maskSum).sum = 0
    · simp [get_obj_from_masks, List.filter_cons, hz, ih]
    · simp only [List.filter_cons, decide_eq_true_eq]
      rw [if_pos (by simp [hz])]
      simp [get_obj_from_masks, hz, ih]

/-- Claim C3 counterexample: running the orchestrator clip loop in
category-growth mode with `prompt_type = "points"` on a hypothetical
two-clip plan, the synthetic PromptInfo appended to the second clip's
batch carries the kind tag "points" - the orchestrator's prompt_type
argument - not the tag "mask" the claim requires. -/
theorem c3_kind_not_mask_counterexample :
    (exceptOk (runClipsLoop envA cRes3 framesC "points" true plan3 [] [] none)).map
        (fun r => r.submitted.map (fun e => e.1.map (fun p => p.prompt_type)))
      = some [[], ["points"]]
      ∧ "points" ≠ "mask" := by
  refine ⟨?_, ?_⟩ <;> decide

/-- Claim C3 amended: in category-growth mode, for a clip k followed by a
clip k+1, the orchestrator appends to clip k+1's batch exactly one
synthetic PromptInfo, anchored at clip k's last frame, whose objects are
`get_obj_from_masks` of that frame's merged segment (equivalently, of the
segment with its all-empty-mask instances filtered out: one PromptObj per
geometry sub-mask of each surviving instance) - and whose prompt-kind tag
is the orchestrator's `prompt_type` argument, so it is `mask` only when
the whole run uses mask prompts.  (With the code's own category-growth
planner a two-clip plan is unreachable, since building it raises the
TypeError of claim C9.) -/
theorem c3_boundary_prompt_appended (env : CocoEnv)
    (cRes : List Frame → List PromptInfo → ClipRange → List (Nat × FrameSeg))
    (frames : List Frame) (pt : String) (cps1 cps2 : List PromptInfo)
    (cr1 cr2 : ClipRange) (endSeg1 endSeg2 : FrameSeg)
    (endFrame1 endFrame2 frame0 : Frame)
    (hf0 : frames[0]? = some frame0)
    (hf1 : frames[cr1.end_idx]? = some endFrame1)
    (hf2 : frames[cr2.end_idx]? = some endFrame2)
    (h1 : alookup (dictUpdate [] (cRes frames cps1 cr1)) cr1.end_idx = some endSeg1)
    (h2 : alookup (dictUpdate (dictUpdate [] (cRes frames cps1 cr1))
        (cRes frames
          (cps2 ++ [mkBoundaryPrompt env pt endSeg1 cr1 frame0 endFrame1]) cr2))
        cr2.end_idx = some endSeg2) :
    runClipsLoop env cRes frames pt true [(cps1, cr1), (cps2, cr2)] [] [] none
        = .ok ⟨dictUpdate (dictUpdate [] (cRes frames cps1 cr1))
              (cRes frames
                (cps2 ++ [mkBoundaryPrompt env pt endSeg1 cr1 frame0 endFrame1]) cr2),
            [(cps1, cr1),
              (cps2 ++ [mkBoundaryPrompt env pt endSeg1 cr1 frame0 endFrame1], cr2)]⟩
      ∧ (mkBoundaryPrompt env pt endSeg1 cr1 frame0 endFrame1).prompt_type = pt
      ∧ (mkBoundaryPrompt env pt endSeg1 cr1 frame0 endFrame1).frame_idx = cr1.end_idx
      ∧ (mkBoundaryPrompt env pt endSeg1 cr1 frame0 endFrame1).prompt_objs
          = get_obj_from_masks env endSeg1
      ∧ get_obj_from_masks env endSeg1
          = get_obj_from_masks env (endSeg1.filter
              (fun kv => decide (¬ (kv.2.mask.map maskSum).sum = 0))) := by
  refine ⟨?_, rfl, rfl, rfl, get_obj_from_masks_skips_empty env endSeg1⟩
  simp only [runClipsLoop, h1, hf1, hf0, h2, hf2, List.nil_append,
    List.singleton_append, List.cons_append, List.append_nil]

theorem c3_boundary_prompt_appended_witness :
    runClipsLoop envA cRes3 framesC "points" true
          [([], ⟨0, 0⟩), ([], ⟨1, 1⟩)] [] [] none
        = .ok ⟨dictUpdate (dictUpdate [] (cRes3 framesC [] ⟨0, 0⟩))
              (cRes3 framesC
                ([] ++ [mkBoundaryPrompt envA "points" [(5, ⟨[[true]], 9⟩)] ⟨0, 0⟩
                    ⟨0, 0, 0, true, "f0.jpg"⟩ ⟨0, 0, 0, true, "f0.jpg"⟩]) ⟨1, 1⟩),
            [(([] : List PromptInfo), (⟨0, 0⟩ : ClipRange)),
              ([] ++ [mkBoundaryPrompt envA "points" [(5, ⟨[[true]], 9⟩)] ⟨0, 0⟩
                  ⟨0, 0, 0, true, "f0.jpg"⟩ ⟨0, 0, 0, true, "f0.jpg"⟩], ⟨1, 1⟩)]⟩
      ∧ (mkBoundaryPrompt envA "points" [(5, ⟨[[true]], 9⟩)] ⟨0, 0⟩
          ⟨0, 0, 0, true, "f0.jpg"⟩ ⟨0, 0, 0, true, "f0.jpg"⟩).prompt_type = "points"
      ∧ (mkBoundaryPrompt envA "points" [(5, ⟨[[true]], 9⟩)] ⟨0, 0⟩
          ⟨0, 0, 0, true, "f0.jpg"⟩ ⟨0, 0, 0, true, "f0.jpg"⟩).frame_idx
          = (⟨0, 0⟩ : ClipRange).end_idx
      ∧ (mkBoundaryPrompt envA "points" [(5, ⟨[[true]], 9⟩)] ⟨0, 0⟩
          ⟨0, 0, 0, true, "f0.jpg"⟩ ⟨0, 0, 0, true, "f0.jpg"⟩).prompt_objs
          = get_obj_from_masks envA [(5, ⟨[[true]], 9⟩)]
      ∧ get_obj_from_masks envA [(5, ⟨[[true]], 9⟩)]
          = get_obj_from_masks envA ([(5, ⟨[[true]], 9⟩)].filter
              (fun kv => decide (¬ (kv.2.mask.map maskSum).sum = 0))) :=
  c3_boundary_prompt_appended envA cRes3 framesC "points" [] [] ⟨0, 0⟩ ⟨1, 1⟩
    [(5, ⟨[[true]], 9⟩)] [(5, ⟨[[true]], 9⟩)] ⟨0, 0, 0, true, "f0.jpg"⟩
    ⟨1, 0, 1, true, "f1.jpg"⟩ ⟨0, 0, 0, true, "f0.jpg"⟩
    (by decide) (by decide) (by decide) (by decide) (by decide)

end SSAM
